import Mathlib

/-!
Verification of the Station-Manager/maidenhead Go package (bearing.go).

Go strings are modelled as lists of byte values (`GoStr := List Nat`, each
element a byte 0-255).  Byte-level operations (`len`, `s[pos]`) act on the
list directly; rune-level operations (`[]rune(s)`, `string(runes)`) go
through an explicit UTF-8 decoder/encoder mirroring Go's conversion rules.
Floating-point latitude/longitude arithmetic is exact decimal arithmetic in
the source, modelled over `ℚ`; the trigonometric bearing/distance engine is
modelled over `ℝ`.  A Go runtime panic (out-of-range slice index) is
modelled by `GoRes.panic` / `Option.none`.
-/

/-- A Go string: a list of byte values (each < 256 in the Go program). -/
abbrev GoStr := List Nat

/-- Bytes of an ASCII Lean string literal (used only for literal Go strings,
which are all ASCII in this program). -/
def strBytes (s : String) : GoStr := s.data.map (fun c => c.toNat)

/-- Result of a Go function that can return a value, return an error, or
panic at runtime. -/
inductive GoRes (α : Type) where
  | ok : α → GoRes α
  | err : GoStr → GoRes α
  | panic : GoRes α
deriving DecidableEq

/-- `m` contains `pat` as a contiguous substring. -/
def bytesContain (pat m : GoStr) : Prop := ∃ a b, m = a ++ pat ++ b

/- Constants from the `const` block of bearing.go. -/

/-- Used for rounding calculations to 5 decimal places. -/
def rounding : ℚ := 100000

/-- ASCII value for the letter A (uppercase). -/
def asciiUpperA : ℚ := 65

/-- ASCII value for the letter a (lowercase). -/
def asciiLowerA : ℚ := 97

/-- Width of a field in degrees (longitude). -/
def fieldWidth : ℚ := 20

/-- Height of a field in degrees (latitude). -/
def fieldHeight : ℚ := 10

/-- Width of a square in degrees (longitude). -/
def squareWidth : ℚ := 2

/-- Height of a square in degrees (latitude). -/
def squareHeight : ℚ := 1

/-- Width of a subsquare in degrees (longitude). -/
def subsquareWidth : ℚ := 5 / 60

/-- Height of a subsquare in degrees (latitude). -/
def subsquareHeight : ℚ := 2.5 / 60

/-- Go `math.Round`: round to the nearest integer, half away from zero. -/
def goMathRound {α : Type} [LinearOrderedField α] [FloorRing α] (x : α) : α :=
  if 0 ≤ x then ((⌊x + 1 / 2⌋ : ℤ) : α) else -((⌊-x + 1 / 2⌋ : ℤ) : α)

/-- Go `unicode.IsUpper` restricted to code points 0-255, the only values a
byte-indexed `rune(s[pos])` can take: Unicode category Lu within Latin-1 is
A-Z, U+00C0-U+00D6 and U+00D8-U+00DE. -/
def goIsUpper (c : Nat) : Bool :=
  decide ((65 ≤ c ∧ c ≤ 90) ∨ (192 ≤ c ∧ c ≤ 214) ∨ (216 ≤ c ∧ c ≤ 222))

/-- Go `unicode.IsLower` restricted to code points 0-255: category Ll within
Latin-1 is a-z, U+00B5, U+00DF-U+00F6 and U+00F8-U+00FF. -/
def goIsLower (c : Nat) : Bool :=
  decide ((97 ≤ c ∧ c ≤ 122) ∨ c = 181 ∨ (223 ≤ c ∧ c ≤ 246) ∨ (248 ≤ c ∧ c ≤ 255))

/-- Go `unicode.IsDigit` restricted to code points 0-255: category Nd within
Latin-1 is 0-9 (superscript digits are category No). -/
def goIsDigit (c : Nat) : Bool := decide (48 ≤ c ∧ c ≤ 57)

/-- Go `unicode.ToUpper`, exact on ASCII and Latin-1; identity elsewhere.
Every rune the program feeds to it is ASCII or U+FFFD (identity on both, see
the no-panic analysis below), so values outside Latin-1 are never observable. -/
def goToUpper (r : Nat) : Nat :=
  if 97 ≤ r ∧ r ≤ 122 then r - 32
  else if r = 181 then 924
  else if (224 ≤ r ∧ r ≤ 254) ∧ r ≠ 247 then r - 32
  else if r = 255 then 376
  else r

/-- Go `unicode.ToLower`, exact on ASCII and Latin-1; identity elsewhere
(same observability note as `goToUpper`). -/
def goToLower (r : Nat) : Nat :=
  if 65 ≤ r ∧ r ≤ 90 then r + 32
  else if (192 ≤ r ∧ r ≤ 222) ∧ r ≠ 215 then r + 32
  else r

/-- Second-byte accept range for a 3-byte UTF-8 sequence headed by `b`
(Go `unicode/utf8` accept ranges: E0 needs A0-BF, ED needs 80-9F). -/
def utf8Accept2 (b c1 : Nat) : Bool :=
  if b = 224 then decide (160 ≤ c1 ∧ c1 ≤ 191)
  else if b = 237 then decide (128 ≤ c1 ∧ c1 ≤ 159)
  else decide (128 ≤ c1 ∧ c1 ≤ 191)

/-- Second-byte accept range for a 4-byte UTF-8 sequence headed by `b`
(F0 needs 90-BF, F4 needs 80-8F). -/
def utf8Accept3 (b c1 : Nat) : Bool :=
  if b = 240 then decide (144 ≤ c1 ∧ c1 ≤ 191)
  else if b = 244 then decide (128 ≤ c1 ∧ c1 ≤ 143)
  else decide (128 ≤ c1 ∧ c1 ≤ 191)

/-- Go `[]rune(s)`: UTF-8 decoding where every invalid or truncated byte
sequence yields one U+FFFD (65533) for its first byte and advances one byte,
per `utf8.DecodeRuneInString`.  The arms specialize the Go loop body to the
number of bytes remaining (a multi-byte sequence is truncated, hence an
error of size 1, whenever fewer bytes remain than its header requires). -/
def utf8Decode : List Nat → List Nat
  | [] => []
  | [b] => if b < 128 then [b] else [65533]
  | [b, c1] =>
    if b < 128 then b :: utf8Decode [c1]
    else if b < 194 then 65533 :: utf8Decode [c1]
    else if b < 224 then
      if 128 ≤ c1 ∧ c1 ≤ 191 then [(b - 192) * 64 + (c1 - 128)]
      else 65533 :: utf8Decode [c1]
    else 65533 :: utf8Decode [c1]
  | [b, c1, c2] =>
    if b < 128 then b :: utf8Decode [c1, c2]
    else if b < 194 then 65533 :: utf8Decode [c1, c2]
    else if b < 224 then
      if 128 ≤ c1 ∧ c1 ≤ 191 then ((b - 192) * 64 + (c1 - 128)) :: utf8Decode [c2]
      else 65533 :: utf8Decode [c1, c2]
    else if b < 240 then
      if utf8Accept2 b c1 = true ∧ 128 ≤ c2 ∧ c2 ≤ 191 then
        [(b - 224) * 4096 + (c1 - 128) * 64 + (c2 - 128)]
      else 65533 :: utf8Decode [c1, c2]
    else 65533 :: utf8Decode [c1, c2]
  | b :: c1 :: c2 :: c3 :: rest =>
    if b < 128 then b :: utf8Decode (c1 :: c2 :: c3 :: rest)
    else if b < 194 then 65533 :: utf8Decode (c1 :: c2 :: c3 :: rest)
    else if b < 224 then
      if 128 ≤ c1 ∧ c1 ≤ 191 then
        ((b - 192) * 64 + (c1 - 128)) :: utf8Decode (c2 :: c3 :: rest)
      else 65533 :: utf8Decode (c1 :: c2 :: c3 :: rest)
    else if b < 240 then
      if utf8Accept2 b c1 = true ∧ 128 ≤ c2 ∧ c2 ≤ 191 then
        ((b - 224) * 4096 + (c1 - 128) * 64 + (c2 - 128)) :: utf8Decode (c3 :: rest)
      else 65533 :: utf8Decode (c1 :: c2 :: c3 :: rest)
    else if b < 245 then
      if utf8Accept3 b c1 = true ∧ (128 ≤ c2 ∧ c2 ≤ 191) ∧ (128 ≤ c3 ∧ c3 ≤ 191) then
        ((b - 240) * 262144 + (c1 - 128) * 4096 + (c2 - 128) * 64 + (c3 - 128))
          :: utf8Decode rest
      else 65533 :: utf8Decode (c1 :: c2 :: c3 :: rest)
    else 65533 :: utf8Decode (c1 :: c2 :: c3 :: rest)

/-- UTF-8 encoding of one rune, as in Go `utf8.EncodeRune`; invalid runes
(surrogates, out of range) encode as U+FFFD. -/
def utf8EncodeRune (r : Nat) : List Nat :=
  if r < 128 then [r]
  else if r < 2048 then [192 + r / 64, 128 + r % 64]
  else if (55296 ≤ r ∧ r ≤ 57343) ∨ 1114111 < r then [239, 191, 189]
  else if r < 65536 then [224 + r / 4096, 128 + (r / 64) % 64, 128 + r % 64]
  else [240 + r / 262144, 128 + (r / 4096) % 64, 128 + (r / 64) % 64, 128 + r % 64]

/-- Go `string(runes)`: concatenated UTF-8 encodings. -/
def utf8EncodeRunes : List Nat → List Nat
  | [] => []
  | r :: rs => utf8EncodeRune r ++ utf8EncodeRunes rs

/-- Decimal digits of a natural number (Go `%d` formatting). -/
def natBytes (n : Nat) : GoStr :=
  if n < 10 then [48 + n]
  else natBytes (n / 10) ++ [48 + n % 10]
termination_by n
decreasing_by exact Nat.div_lt_self (by omega) (by omega)

/-- `normalizeGridSquare` standardizes a provided grid square to the
expected case pattern AA99aa: byte-length check, then rune-level case
folding of positions 0, 1, 4, 5.  `none` models the runtime panic that the
Go code raises when the decoded rune slice has fewer than 6 entries (which
happens for 6-byte inputs containing multi-byte UTF-8 sequences). -/
def normalizeGridSquare (s : GoStr) : Option GoStr :=
  if s.length ≠ 6 then some s
  else
    let runes := utf8Decode s
    if runes.length < 6 then none
    else
      let r0 := runes.set 0 (goToUpper (runes.getD 0 0))
      let r1 := r0.set 1 (goToUpper (r0.getD 1 0))
      let r4 := r1.set 4 (goToLower (r1.getD 4 0))
      let r5 := r4.set 5 (goToLower (r4.getD 5 0))
      some (utf8EncodeRunes r5)

/-- Message shape of `fmt.Errorf` with format string
`invalid gridsquare format: x (reason)`. -/
def fmtErr (str msg : GoStr) : GoStr :=
  strBytes (r"invalid gridsquare format: ") ++ str ++ strBytes (r" (") ++ msg
    ++ strBytes (r")")

/-- `isUppercaseAtPosition` from bearing.go (byte access `s[pos]`). -/
def isUppercaseAtPosition (s : GoStr) (pos : Nat) : Except GoStr Bool :=
  if s.length ≤ pos then
    .error (strBytes (r"position ") ++ natBytes pos
      ++ strBytes (r" is out of range for string ") ++ [39] ++ s ++ [39])
  else .ok (goIsUpper (s.getD pos 0))

/-- `isUpperARAtPosition`: uppercase check, then the byte range A-R. -/
def isUpperARAtPosition (s : GoStr) (pos : Nat) : Except GoStr Bool :=
  match isUppercaseAtPosition s pos with
  | .error e => .error e
  | .ok false => .ok false
  | .ok true => .ok (decide (65 ≤ s.getD pos 0 ∧ s.getD pos 0 ≤ 82))

/-- `isLowercaseAtPosition` from bearing.go. -/
def isLowercaseAtPosition (s : GoStr) (pos : Nat) : Except GoStr Bool :=
  if s.length ≤ pos then
    .error (strBytes (r"position ") ++ natBytes pos
      ++ strBytes (r" out of bounds for string of length ") ++ natBytes s.length)
  else .ok (goIsLower (s.getD pos 0))

/-- `isLowerAXAtPosition`: lowercase check, then the byte range a-x. -/
def isLowerAXAtPosition (s : GoStr) (pos : Nat) : Except GoStr Bool :=
  match isLowercaseAtPosition s pos with
  | .error e => .error e
  | .ok false => .ok false
  | .ok true => .ok (decide (97 ≤ s.getD pos 0 ∧ s.getD pos 0 ≤ 120))

/-- `isDigitAtPosition` from bearing.go. -/
def isDigitAtPosition (s : GoStr) (pos : Nat) : Except GoStr Bool :=
  if s.length ≤ pos then
    .error (strBytes (r"position ") ++ natBytes pos
      ++ strBytes (r" is out of range for string length ") ++ natBytes s.length)
  else .ok (goIsDigit (s.getD pos 0))

/-- One iteration of the validator loop body in `validateInput`. -/
def checkOne (v : GoStr → Nat → Except GoStr Bool) (str : GoStr) (pos : Nat)
    (msg : GoStr) : Except GoStr Unit :=
  match v str pos with
  | .error e => .error e
  | .ok true => .ok ()
  | .ok false => .error (fmtErr str msg)

/-- `validateInput` from bearing.go; the loop over the ordered validator
table is unrolled into its six sequential iterations. -/
def validateInput (str : GoStr) : Except GoStr Unit :=
  if str.length ≠ 6 then .error (fmtErr str (strBytes (r"must be 6 characters")))
  else
    match checkOne isUpperARAtPosition str 0 (strBytes (r"first character must be A-R")) with
    | .error e => .error e
    | .ok _ =>
    match checkOne isUpperARAtPosition str 1 (strBytes (r"second character must be A-R")) with
    | .error e => .error e
    | .ok _ =>
    match checkOne isDigitAtPosition str 2 (strBytes (r"third character must be a digit")) with
    | .error e => .error e
    | .ok _ =>
    match checkOne isDigitAtPosition str 3 (strBytes (r"fourth character must be a digit")) with
    | .error e => .error e
    | .ok _ =>
    match checkOne isLowerAXAtPosition str 4 (strBytes (r"fifth character must be a-x")) with
    | .error e => .error e
    | .ok _ =>
    checkOne isLowerAXAtPosition str 5 (strBytes (r"sixth character must be a-x"))

/-- Go `strconv.Atoi`: optional sign then decimal digits.  The int64
overflow path is not modelled; every call site passes a single ASCII digit. -/
def goAtoi : GoStr → Except GoStr Int
  | [] =>
    .error (strBytes (r"strconv.Atoi: parsing ") ++ [34, 34]
      ++ strBytes (r": invalid syntax"))
  | b :: rest =>
    let core := if b = 43 ∨ b = 45 then rest else b :: rest
    if core.isEmpty || !(core.all (fun d => decide (48 ≤ d ∧ d ≤ 57))) then
      .error (strBytes (r"strconv.Atoi: parsing ") ++ [34] ++ (b :: rest) ++ [34]
        ++ strBytes (r": invalid syntax"))
    else
      let mag : Int := core.foldl (fun (acc : Int) (d : Nat) => acc * 10 + ((d : Int) - 48)) 0
      .ok (if b = 45 then -mag else mag)

/-- `LatitudeFromGridSquare` from bearing.go, over exact rationals. -/
def LatitudeFromGridSquare (gridSquare : GoStr) : GoRes ℚ :=
  match normalizeGridSquare gridSquare with
  | none => .panic
  | some normalized =>
    match validateInput normalized with
    | .error e => .err e
    | .ok _ =>
      let runes := utf8Decode normalized
      if runes.length < 6 then .panic
      else
        let fieldLat : ℚ := (runes.getD 1 0 : ℚ) - asciiUpperA
        let fieldLatDegrees := fieldLat * fieldHeight
        match goAtoi (utf8EncodeRune (runes.getD 3 0)) with
        | .error e => .err e
        | .ok squareNum =>
          let squareLatDegrees : ℚ := (squareNum : ℚ) * squareHeight
          let subsquareLat : ℚ := (runes.getD 5 0 : ℚ) - asciiLowerA
          let subsquareLatDegrees := subsquareLat * subsquareHeight
          let centerOffset := subsquareHeight / 2
          let latitude :=
            fieldLatDegrees + squareLatDegrees + subsquareLatDegrees + centerOffset - 90
          .ok (goMathRound (latitude * rounding) / rounding)

/-- `LongitudeFromGridSquare` from bearing.go, over exact rationals. -/
def LongitudeFromGridSquare (gridSquare : GoStr) : GoRes ℚ :=
  match normalizeGridSquare gridSquare with
  | none => .panic
  | some normalized =>
    match validateInput normalized with
    | .error e => .err e
    | .ok _ =>
      let runes := utf8Decode normalized
      if runes.length < 6 then .panic
      else
        let fieldLong : ℚ := (runes.getD 0 0 : ℚ) - asciiUpperA
        let fieldLongDegrees := fieldLong * fieldWidth
        match goAtoi (utf8EncodeRune (runes.getD 2 0)) with
        | .error e => .err e
        | .ok squareNum =>
          let squareLongDegrees : ℚ := (squareNum : ℚ) * squareWidth
          let subsquareLong : ℚ := (runes.getD 4 0 : ℚ) - asciiLowerA
          let subsquareLongDegrees := subsquareLong * subsquareWidth
          let centerOffset := subsquareWidth / 2
          let longitude :=
            fieldLongDegrees + squareLongDegrees + subsquareLongDegrees + centerOffset - 180
          .ok (goMathRound (longitude * rounding) / rounding)

/-- `extractCoordinates` from bearing.go. -/
def extractCoordinates (gridSquare : GoStr) : GoRes (ℚ × ℚ) :=
  match LatitudeFromGridSquare gridSquare with
  | .panic => .panic
  | .err e => .err e
  | .ok lat =>
    match LongitudeFromGridSquare gridSquare with
    | .panic => .panic
    | .err e => .err e
    | .ok long => .ok (lat, long)

/-- A locator the library accepts: normalization does not panic and the
normalized form passes `validateInput`. -/
def goValidLocator (s : GoStr) : Bool :=
  match normalizeGridSquare s with
  | none => false
  | some n =>
    match validateInput n with
    | .ok _ => true
    | .error _ => false

/- The geodesy engine of bearing.go works on float64 trigonometry; it is
modelled over the real numbers. -/

/-- Earth radius in kilometers. -/
noncomputable def earthRad : ℝ := 6371

/-- Conversion factor from kilometers to miles. -/
noncomputable def kmToMiles : ℝ := 0.621371

/-- `toRadians` from bearing.go. -/
noncomputable def toRadians (degrees : ℝ) : ℝ := degrees * Real.pi / 180

/-- `toDegrees` from bearing.go. -/
noncomputable def toDegrees (radians : ℝ) : ℝ := radians * 180 / Real.pi

/-- Go `math.Atan2 y x`: the angle of the point (x, y) in (-pi, pi],
following the atan2 special-case table (signed zeros do not exist in ℝ). -/
noncomputable def goAtan2 (y x : ℝ) : ℝ :=
  if 0 < x then Real.arctan (y / x)
  else if x < 0 then
    if 0 ≤ y then Real.arctan (y / x) + Real.pi else Real.arctan (y / x) - Real.pi
  else
    if 0 < y then Real.pi / 2 else if y < 0 then -(Real.pi / 2) else 0

/-- Go `math.Trunc`: round toward zero. -/
noncomputable def goTrunc (x : ℝ) : ℝ := if 0 ≤ x then ((⌊x⌋ : ℤ) : ℝ) else ((⌈x⌉ : ℤ) : ℝ)

/-- Go `math.Mod x y = x - Trunc(x/y)*y` (sign follows x). -/
noncomputable def goMod (x y : ℝ) : ℝ := x - goTrunc (x / y) * y

/-- `CalculateBearing` from bearing.go. -/
noncomputable def CalculateBearing (lat1 lon1 lat2 lon2 : ℝ) : ℝ :=
  let lat1Rad := toRadians lat1
  let lon1Rad := toRadians lon1
  let lat2Rad := toRadians lat2
  let lon2Rad := toRadians lon2
  let dLon := lon2Rad - lon1Rad
  let y := Real.sin dLon * Real.cos lat2Rad
  let x := Real.cos lat1Rad * Real.sin lat2Rad -
    Real.sin lat1Rad * Real.cos lat2Rad * Real.cos dLon
  let initialBearing := toDegrees (goAtan2 y x)
  let normalized := if initialBearing < 0 then initialBearing + 360 else initialBearing
  goMathRound (normalized * 10) / 10

/-- `GetShortPathBearing` from bearing.go. -/
noncomputable def GetShortPathBearing (localGridSquare remoteGridSquare : GoStr) : GoRes ℝ :=
  match extractCoordinates localGridSquare with
  | .panic => .panic
  | .err e => .err (strBytes (r"invalid local grid square: ") ++ e)
  | .ok localCoords =>
    match extractCoordinates remoteGridSquare with
    | .panic => .panic
    | .err e => .err (strBytes (r"invalid remote grid square: ") ++ e)
    | .ok remoteCoords =>
      .ok (CalculateBearing (localCoords.1 : ℝ) (localCoords.2 : ℝ)
        (remoteCoords.1 : ℝ) (remoteCoords.2 : ℝ))

/-- `GetLongPathBearing` from bearing.go. -/
noncomputable def GetLongPathBearing (localGridSquare remoteGridSquare : GoStr) : GoRes ℝ :=
  match GetShortPathBearing localGridSquare remoteGridSquare with
  | .panic => .panic
  | .err e => .err (strBytes (r"error calculating short path bearing: ") ++ e)
  | .ok shortPathBearing =>
    let longPathBearing := goMod (shortPathBearing + 180) 360
    let longPathBearing2 :=
      if longPathBearing < 0 then longPathBearing + 360 else longPathBearing
    .ok (goMathRound (longPathBearing2 * 10) / 10)

/-- `GetShortPathDistance` from bearing.go: Haversine distance, km then
miles, each via `math.Ceil` (modelled by the integer ceiling cast to ℝ). -/
noncomputable def GetShortPathDistance (localGridSquare remoteGridSquare : GoStr) :
    GoRes (ℝ × ℝ) :=
  match extractCoordinates localGridSquare with
  | .panic => .panic
  | .err e => .err (strBytes (r"invalid local grid square: ") ++ e)
  | .ok localCoords =>
    match extractCoordinates remoteGridSquare with
    | .panic => .panic
    | .err e => .err (strBytes (r"invalid remote grid square: ") ++ e)
    | .ok remoteCoords =>
      let localLongRad := toRadians (localCoords.2 : ℝ)
      let localLatRad := toRadians (localCoords.1 : ℝ)
      let remoteLongRad := toRadians (remoteCoords.2 : ℝ)
      let remoteLatRad := toRadians (remoteCoords.1 : ℝ)
      let dLat := remoteLatRad - localLatRad
      let dLon := remoteLongRad - localLongRad
      let a := Real.sin (dLat / 2) * Real.sin (dLat / 2) +
        Real.cos localLatRad * Real.cos remoteLatRad *
          Real.sin (dLon / 2) * Real.sin (dLon / 2)
      let c := 2 * goAtan2 (Real.sqrt a) (Real.sqrt (1 - a))
      let distanceKm : ℝ := ((⌈earthRad * c⌉ : ℤ) : ℝ)
      let distanceMiles : ℝ := ((⌈distanceKm * kmToMiles⌉ : ℤ) : ℝ)
      .ok (distanceKm, distanceMiles)

/-- `GetLongPathDistance` from bearing.go. -/
noncomputable def GetLongPathDistance (localGridSquare remoteGridSquare : GoStr) :
    GoRes (ℝ × ℝ) :=
  match GetShortPathDistance localGridSquare remoteGridSquare with
  | .panic => .panic
  | .err e => .err e
  | .ok shortPath =>
    let earthCircumferenceKm := 2 * Real.pi * earthRad
    let longPathKm : ℝ := ((⌈earthCircumferenceKm - shortPath.1⌉ : ℤ) : ℝ)
    let longPathMiles : ℝ := ((⌈longPathKm * kmToMiles⌉ : ℤ) : ℝ)
    .ok (longPathKm, longPathMiles)

/- Spec-side definitions, written from the words of the specification, to be
compared with the source-side definitions above. -/

/-- Modelled from the spec (claim C1): latitude formula
`field*10 + square*1 + sub*(2.5/60) + (2.5/60)/2 - 90`, field read from
string-index 1, square from 3, sub from 5, rounded to 5 decimal places. -/
def specLatitude (n : GoStr) : ℚ :=
  goMathRound ((((n.getD 1 0 : ℚ) - 65) * 10 + ((n.getD 3 0 : ℚ) - 48) * 1
    + ((n.getD 5 0 : ℚ) - 97) * (2.5 / 60) + (2.5 / 60) / 2 - 90) * 100000) / 100000

/-- Modelled from the spec (claim C1): longitude formula with field width
20, square width 2, subsquare width 5/60, origin -180, indices 0, 2, 4. -/
def specLongitude (n : GoStr) : ℚ :=
  goMathRound ((((n.getD 0 0 : ℚ) - 65) * 20 + ((n.getD 2 0 : ℚ) - 48) * 2
    + ((n.getD 4 0 : ℚ) - 97) * (5 / 60) + (5 / 60) / 2 - 180) * 100000) / 100000

/-- Modelled from the spec (claim C2): the error phrase of the first
violated rule in the strict left-to-right rule order, `none` when all seven
rules hold. -/
def specPhrase (s : GoStr) : Option GoStr :=
  if s.length ≠ 6 then some (strBytes (r"must be 6 characters"))
  else if ¬(65 ≤ s.getD 0 0 ∧ s.getD 0 0 ≤ 82) then
    some (strBytes (r"first character must be A-R"))
  else if ¬(65 ≤ s.getD 1 0 ∧ s.getD 1 0 ≤ 82) then
    some (strBytes (r"second character must be A-R"))
  else if ¬(48 ≤ s.getD 2 0 ∧ s.getD 2 0 ≤ 57) then
    some (strBytes (r"third character must be a digit"))
  else if ¬(48 ≤ s.getD 3 0 ∧ s.getD 3 0 ≤ 57) then
    some (strBytes (r"fourth character must be a digit"))
  else if ¬(97 ≤ s.getD 4 0 ∧ s.getD 4 0 ≤ 120) then
    some (strBytes (r"fifth character must be a-x"))
  else if ¬(97 ≤ s.getD 5 0 ∧ s.getD 5 0 ≤ 120) then
    some (strBytes (r"sixth character must be a-x"))
  else none

/-- Uppercasing of one ASCII character. -/
def asciiUpper (b : Nat) : Nat := if 97 ≤ b ∧ b ≤ 122 then b - 32 else b

/-- Lowercasing of one ASCII character. -/
def asciiLower (b : Nat) : Nat := if 65 ≤ b ∧ b ≤ 90 then b + 32 else b

/-- Modelled from the spec (claim C8): `normalize` is the identity unless
the input has exactly 6 characters, in which case positions 0-1 are
uppercased and 4-5 lowercased, 2-3 untouched, with no validation. -/
def specNormalize (s : GoStr) : GoStr :=
  if s.length ≠ 6 then s
  else [asciiUpper (s.getD 0 0), asciiUpper (s.getD 1 0), s.getD 2 0, s.getD 3 0,
    asciiLower (s.getD 4 0), asciiLower (s.getD 5 0)]

/-- Two byte strings differing only in the (ASCII) letter case of their
characters. -/
def caseVariant (a b : GoStr) : Prop :=
  a.length = b.length ∧ ∀ i < a.length, asciiLower (a.getD i 0) = asciiLower (b.getD i 0)

instance (a b : GoStr) : Decidable (caseVariant a b) := by
  unfold caseVariant; infer_instance

/-- Mathematical `x mod 360` renormalized into [0, 360) (spec-side, claims
C3/C4). -/
noncomputable def mod360 (x : ℝ) : ℝ := x - 360 * ((⌊x / 360⌋ : ℤ) : ℝ)

/- ## Lemmas about validation -/

lemma exists_six (s : GoStr) (h : s.length = 6) :
    ∃ b0 b1 b2 b3 b4 b5, s = [b0, b1, b2, b3, b4, b5] := by
  rcases s with _ | ⟨b0, _ | ⟨b1, _ | ⟨b2, _ | ⟨b3, _ | ⟨b4, _ | ⟨b5, _ | ⟨b6, t⟩⟩⟩⟩⟩⟩⟩ <;>
    first
      | exact ⟨_, _, _, _, _, _, rfl⟩
      | (simp only [List.length_cons, List.length_nil] at h; omega)

lemma checkUpperAR (s : GoStr) (pos : Nat) (msg : GoStr) (h : pos < s.length) :
    checkOne isUpperARAtPosition s pos msg =
      if 65 ≤ s.getD pos 0 ∧ s.getD pos 0 ≤ 82 then .ok () else .error (fmtErr s msg) := by
  unfold checkOne isUpperARAtPosition isUppercaseAtPosition
  rw [if_neg (by omega)]
  generalize s.getD pos 0 = d
  by_cases hc : 65 ≤ d ∧ d ≤ 82
  · have hg : goIsUpper d = true := by
      simp only [goIsUpper, decide_eq_true_eq]; omega
    simp [hg, hc]
  · cases hg : goIsUpper d <;> simp [hg, hc]

lemma checkLowerAX (s : GoStr) (pos : Nat) (msg : GoStr) (h : pos < s.length) :
    checkOne isLowerAXAtPosition s pos msg =
      if 97 ≤ s.getD pos 0 ∧ s.getD pos 0 ≤ 120 then .ok () else .error (fmtErr s msg) := by
  unfold checkOne isLowerAXAtPosition isLowercaseAtPosition
  rw [if_neg (by omega)]
  generalize s.getD pos 0 = d
  by_cases hc : 97 ≤ d ∧ d ≤ 120
  · have hg : goIsLower d = true := by
      simp only [goIsLower, decide_eq_true_eq]; omega
    simp [hg, hc]
  · cases hg : goIsLower d <;> simp [hg, hc]

lemma checkDigit (s : GoStr) (pos : Nat) (msg : GoStr) (h : pos < s.length) :
    checkOne isDigitAtPosition s pos msg =
      if 48 ≤ s.getD pos 0 ∧ s.getD pos 0 ≤ 57 then .ok () else .error (fmtErr s msg) := by
  unfold checkOne isDigitAtPosition
  rw [if_neg (by omega)]
  generalize s.getD pos 0 = d
  by_cases hc : 48 ≤ d ∧ d ≤ 57
  · simp [goIsDigit, hc]
  · simp [goIsDigit, hc]

/-- `validateInput` returns exactly the error of the first violated rule of
the specification, and succeeds exactly when no rule is violated. -/
lemma validateInput_spec (s : GoStr) :
    validateInput s = match specPhrase s with
      | none => .ok ()
      | some p => .error (fmtErr s p) := by
  by_cases h6 : s.length = 6
  · obtain ⟨b0, b1, b2, b3, b4, b5, rfl⟩ := exists_six s h6
    unfold validateInput specPhrase
    rw [if_neg (by simp), if_neg (by simp)]
    rw [checkUpperAR _ 0 _ (by simp), checkUpperAR _ 1 _ (by simp),
      checkDigit _ 2 _ (by simp), checkDigit _ 3 _ (by simp),
      checkLowerAX _ 4 _ (by simp), checkLowerAX _ 5 _ (by simp)]
    simp only [List.getD_cons_zero, List.getD_cons_succ]
    by_cases h0 : 65 ≤ b0 ∧ b0 ≤ 82
    case neg => simp [h0]
    by_cases h1 : 65 ≤ b1 ∧ b1 ≤ 82
    case neg => simp [h0, h1]
    by_cases h2 : 48 ≤ b2 ∧ b2 ≤ 57
    case neg => simp [h0, h1, h2]
    by_cases h3 : 48 ≤ b3 ∧ b3 ≤ 57
    case neg => simp [h0, h1, h2, h3]
    by_cases h4 : 97 ≤ b4 ∧ b4 ≤ 120
    case neg => simp [h0, h1, h2, h3, h4]
    by_cases h5 : 97 ≤ b5 ∧ b5 ≤ 120
    case neg => simp [h0, h1, h2, h3, h4, h5]
    simp [h0, h1, h2, h3, h4, h5]
  · unfold validateInput specPhrase
    rw [if_pos h6, if_pos h6]

/-- Shape of a string accepted by `validateInput`: six bytes in the ranges
A-R, A-R, 0-9, 0-9, a-x, a-x. -/
lemma validateInput_ok_shape (s : GoStr) (h : validateInput s = .ok ()) :
    ∃ b0 b1 b2 b3 b4 b5, s = [b0, b1, b2, b3, b4, b5] ∧
      (65 ≤ b0 ∧ b0 ≤ 82) ∧ (65 ≤ b1 ∧ b1 ≤ 82) ∧ (48 ≤ b2 ∧ b2 ≤ 57) ∧
      (48 ≤ b3 ∧ b3 ≤ 57) ∧ (97 ≤ b4 ∧ b4 ≤ 120) ∧ (97 ≤ b5 ∧ b5 ≤ 120) := by
  rw [validateInput_spec s] at h
  by_cases h6 : s.length = 6
  · obtain ⟨b0, b1, b2, b3, b4, b5, rfl⟩ := exists_six s h6
    refine ⟨b0, b1, b2, b3, b4, b5, rfl, ?_⟩
    unfold specPhrase at h
    simp only [List.getD_cons_zero, List.getD_cons_succ] at h
    split_ifs at h
    all_goals simp_all
  · unfold specPhrase at h
    rw [if_pos h6] at h
    simp at h

/- ## Lemmas about UTF-8 decoding and encoding -/

lemma utf8Accept2_cases {b c1 : Nat} (h : utf8Accept2 b c1 = true) :
    (b = 224 ∧ 160 ≤ c1 ∧ c1 ≤ 191) ∨ (b ≠ 224 ∧ 128 ≤ c1 ∧ c1 ≤ 191) := by
  unfold utf8Accept2 at h
  split_ifs at h with h1 h2 <;> simp only [decide_eq_true_eq] at h <;> omega

lemma utf8Accept3_cases {b c1 : Nat} (h : utf8Accept3 b c1 = true) :
    (b = 240 ∧ 144 ≤ c1 ∧ c1 ≤ 191) ∨ (b ≠ 240 ∧ 128 ≤ c1 ∧ c1 ≤ 191) := by
  unfold utf8Accept3 at h
  split_ifs at h with h1 h2 <;> simp only [decide_eq_true_eq] at h <;> omega

/- Unfolding equations of `utf8Decode`, one per pattern arm. -/

lemma utf8Decode_one (b : Nat) :
    utf8Decode [b] = if b < 128 then [b] else [65533] := rfl

lemma utf8Decode_two (b c1 : Nat) :
    utf8Decode [b, c1] =
      if b < 128 then b :: utf8Decode [c1]
      else if b < 194 then 65533 :: utf8Decode [c1]
      else if b < 224 then
        if 128 ≤ c1 ∧ c1 ≤ 191 then [(b - 192) * 64 + (c1 - 128)]
        else 65533 :: utf8Decode [c1]
      else 65533 :: utf8Decode [c1] := rfl

lemma utf8Decode_three (b c1 c2 : Nat) :
    utf8Decode [b, c1, c2] =
      if b < 128 then b :: utf8Decode [c1, c2]
      else if b < 194 then 65533 :: utf8Decode [c1, c2]
      else if b < 224 then
        if 128 ≤ c1 ∧ c1 ≤ 191 then ((b - 192) * 64 + (c1 - 128)) :: utf8Decode [c2]
        else 65533 :: utf8Decode [c1, c2]
      else if b < 240 then
        if utf8Accept2 b c1 = true ∧ 128 ≤ c2 ∧ c2 ≤ 191 then
          [(b - 224) * 4096 + (c1 - 128) * 64 + (c2 - 128)]
        else 65533 :: utf8Decode [c1, c2]
      else 65533 :: utf8Decode [c1, c2] := rfl

lemma utf8Decode_four (b c1 c2 c3 : Nat) (t : List Nat) :
    utf8Decode (b :: c1 :: c2 :: c3 :: t) =
      if b < 128 then b :: utf8Decode (c1 :: c2 :: c3 :: t)
      else if b < 194 then 65533 :: utf8Decode (c1 :: c2 :: c3 :: t)
      else if b < 224 then
        if 128 ≤ c1 ∧ c1 ≤ 191 then
          ((b - 192) * 64 + (c1 - 128)) :: utf8Decode (c2 :: c3 :: t)
        else 65533 :: utf8Decode (c1 :: c2 :: c3 :: t)
      else if b < 240 then
        if utf8Accept2 b c1 = true ∧ 128 ≤ c2 ∧ c2 ≤ 191 then
          ((b - 224) * 4096 + (c1 - 128) * 64 + (c2 - 128)) :: utf8Decode (c3 :: t)
        else 65533 :: utf8Decode (c1 :: c2 :: c3 :: t)
      else if b < 245 then
        if utf8Accept3 b c1 = true ∧ (128 ≤ c2 ∧ c2 ≤ 191) ∧ (128 ≤ c3 ∧ c3 ≤ 191) then
          ((b - 240) * 262144 + (c1 - 128) * 4096 + (c2 - 128) * 64 + (c3 - 128))
            :: utf8Decode t
        else 65533 :: utf8Decode (c1 :: c2 :: c3 :: t)
      else 65533 :: utf8Decode (c1 :: c2 :: c3 :: t) := rfl

/-- Decoding after an ASCII first byte: that byte is its own rune. -/
lemma utf8Decode_cons_low (b : Nat) (rest : List Nat) (hb : b < 128) :
    utf8Decode (b :: rest) = b :: utf8Decode rest := by
  rcases rest with _ | ⟨c1, _ | ⟨c2, _ | ⟨c3, t⟩⟩⟩
  · rw [utf8Decode_one, if_pos hb]; rfl
  · rw [utf8Decode_two, if_pos hb]
  · rw [utf8Decode_three, if_pos hb]
  · rw [utf8Decode_four, if_pos hb]

/-- Decoding a byte sequence whose first byte is not ASCII yields a first
rune that is not ASCII either (a multi-byte scalar value or U+FFFD). -/
lemma utf8Decode_cons_high (b : Nat) (rest : List Nat) (hb : 128 ≤ b) :
    ∃ r rs, utf8Decode (b :: rest) = r :: rs ∧ 128 ≤ r := by
  rcases rest with _ | ⟨c1, _ | ⟨c2, _ | ⟨c3, t⟩⟩⟩
  · rw [utf8Decode_one]
    split_ifs <;> exact ⟨_, _, rfl, by omega⟩
  · rw [utf8Decode_two]
    split_ifs <;> refine ⟨_, _, rfl, ?_⟩ <;> omega
  · rw [utf8Decode_three]
    split_ifs <;> refine ⟨_, _, rfl, ?_⟩ <;>
      first
        | omega
        | (rename_i hA
           obtain ⟨hA1, hA2⟩ := hA
           rcases utf8Accept2_cases hA1 with h | h <;> omega)
  · rw [utf8Decode_four]
    split_ifs <;> refine ⟨_, _, rfl, ?_⟩ <;>
      first
        | omega
        | (rename_i hA
           obtain ⟨hA1, hA2⟩ := hA
           rcases utf8Accept2_cases hA1 with h | h <;> omega)
        | (rename_i hA
           obtain ⟨hA1, hA2⟩ := hA
           rcases utf8Accept3_cases hA1 with h | h <;> omega)

/-- Decoding an all-ASCII byte string is the identity. -/
lemma utf8Decode_ascii (s : GoStr) (h : ∀ b ∈ s, b < 128) : utf8Decode s = s := by
  induction s with
  | nil => rfl
  | cons b rest ih =>
    rw [utf8Decode_cons_low b rest (h b (List.mem_cons_self b rest)),
      ih (fun c hc => h c (List.mem_cons_of_mem _ hc))]

/-- If every decoded rune is ASCII, the input was all-ASCII (and decoding
was the identity). -/
lemma utf8Decode_runes_ascii (s : GoStr) (h : ∀ r ∈ utf8Decode s, r < 128) :
    utf8Decode s = s ∧ ∀ b ∈ s, b < 128 := by
  induction s with
  | nil => exact ⟨rfl, by simp⟩
  | cons b rest ih =>
    by_cases hb : b < 128
    · have hd := utf8Decode_cons_low b rest hb
      rw [hd] at h
      have hrest := ih (fun r hr => h r (List.mem_cons_of_mem _ hr))
      refine ⟨by rw [hd, hrest.1], fun c hc => ?_⟩
      rcases List.mem_cons.mp hc with hcb | hcr
      · omega
      · exact hrest.2 c hcr
    · obtain ⟨r, rs, heq, hr⟩ := utf8Decode_cons_high b rest (by omega)
      rw [heq] at h
      have := h r (List.mem_cons_self r rs)
      omega

lemma utf8EncodeRune_ascii (r : Nat) (h : r < 128) : utf8EncodeRune r = [r] := by
  simp [utf8EncodeRune, h]

lemma utf8EncodeRunes_ascii (rs : List Nat) (h : ∀ r ∈ rs, r < 128) :
    utf8EncodeRunes rs = rs := by
  induction rs with
  | nil => rfl
  | cons r t ih =>
    simp only [utf8EncodeRunes]
    rw [utf8EncodeRune_ascii r (h r (List.mem_cons_self r t)),
      ih (fun c hc => h c (List.mem_cons_of_mem _ hc))]
    rfl

lemma utf8EncodeRune_length_pos (r : Nat) : 1 ≤ (utf8EncodeRune r).length := by
  unfold utf8EncodeRune
  split_ifs <;> simp

lemma utf8EncodeRune_length_one (r : Nat) (h : (utf8EncodeRune r).length = 1) :
    r < 128 := by
  unfold utf8EncodeRune at h
  split_ifs at h <;> simp_all

lemma length_le_utf8EncodeRunes (rs : List Nat) :
    rs.length ≤ (utf8EncodeRunes rs).length := by
  induction rs with
  | nil => simp [utf8EncodeRunes]
  | cons r t ih =>
    simp only [utf8EncodeRunes, List.length_append, List.length_cons]
    have := utf8EncodeRune_length_pos r
    omega

/-- If concatenated encoding does not grow the list, every rune was ASCII. -/
lemma utf8EncodeRunes_length_eq_ascii (rs : List Nat)
    (h : (utf8EncodeRunes rs).length = rs.length) : ∀ r ∈ rs, r < 128 := by
  induction rs with
  | nil => simp
  | cons r t ih =>
    simp only [utf8EncodeRunes, List.length_append, List.length_cons] at h
    have h1 := utf8EncodeRune_length_pos r
    have h2 := length_le_utf8EncodeRunes t
    have hr1 : (utf8EncodeRune r).length = 1 := by omega
    intro c hc
    rcases List.mem_cons.mp hc with hcb | hcr
    · subst hcb; exact utf8EncodeRune_length_one c hr1
    · exact ih (by omega) c hcr

/- ## Lemmas about the coordinate pipeline on valid locators -/

lemma goValidLocator_elim (L : GoStr) (h : goValidLocator L = true) :
    ∃ n, normalizeGridSquare L = some n ∧ validateInput n = .ok () := by
  unfold goValidLocator at h
  cases hN : normalizeGridSquare L with
  | none => rw [hN] at h; simp at h
  | some n =>
    rw [hN] at h
    cases hV : validateInput n with
    | error e => simp only [hV] at h; exact absurd h (by simp)
    | ok u => cases u; exact ⟨n, rfl, hV⟩

lemma goAtoi_digit (d : Nat) (h1 : 48 ≤ d) (h2 : d ≤ 57) :
    goAtoi [d] = .ok ((d : ℤ) - 48) := by
  have hb : ¬(d = 43 ∨ d = 45) := by omega
  have hall : ([d].all (fun c => decide (48 ≤ c ∧ c ≤ 57))) = true := by
    simp only [List.all_cons, List.all_nil, Bool.and_true, decide_eq_true_eq]
    omega
  simp only [goAtoi, if_neg hb, hall, List.isEmpty_cons, Bool.not_true, Bool.or_false,
    if_neg (by omega : ¬d = 45), Bool.false_or, Bool.or_self, if_false, List.foldl]
  norm_num

lemma LatitudeFromGridSquare_valid (L n : GoStr)
    (hn : normalizeGridSquare L = some n) (hv : validateInput n = .ok ()) :
    LatitudeFromGridSquare L = .ok (specLatitude n) := by
  obtain ⟨n0, n1, n2, n3, n4, n5, rfl, h0, h1, h2, h3, h4, h5⟩ :=
    validateInput_ok_shape n hv
  have hdec : utf8Decode [n0, n1, n2, n3, n4, n5] = [n0, n1, n2, n3, n4, n5] :=
    utf8Decode_ascii _ (by intro b hb; simp at hb; omega)
  have henc : utf8EncodeRune n3 = [n3] := utf8EncodeRune_ascii _ (by omega)
  simp only [LatitudeFromGridSquare, hn, hv, hdec, List.length_cons, List.length_nil, List.getD_cons_zero,
    List.getD_cons_succ, henc, goAtoi_digit n3 (by omega) (by omega)]
  rw [if_neg (by omega)]
  unfold specLatitude
  simp only [List.getD_cons_zero, List.getD_cons_succ]
  congr 1
  unfold asciiUpperA asciiLowerA fieldHeight squareHeight subsquareHeight rounding
  congr 1
  push_cast
  ring

lemma LongitudeFromGridSquare_valid (L n : GoStr)
    (hn : normalizeGridSquare L = some n) (hv : validateInput n = .ok ()) :
    LongitudeFromGridSquare L = .ok (specLongitude n) := by
  obtain ⟨n0, n1, n2, n3, n4, n5, rfl, h0, h1, h2, h3, h4, h5⟩ :=
    validateInput_ok_shape n hv
  have hdec : utf8Decode [n0, n1, n2, n3, n4, n5] = [n0, n1, n2, n3, n4, n5] :=
    utf8Decode_ascii _ (by intro b hb; simp at hb; omega)
  have henc : utf8EncodeRune n2 = [n2] := utf8EncodeRune_ascii _ (by omega)
  simp only [LongitudeFromGridSquare, hn, hv, hdec, List.length_cons, List.length_nil, List.getD_cons_zero,
    List.getD_cons_succ, henc, goAtoi_digit n2 (by omega) (by omega)]
  rw [if_neg (by omega)]
  unfold specLongitude
  simp only [List.getD_cons_zero, List.getD_cons_succ]
  congr 1
  unfold asciiUpperA asciiLowerA fieldWidth squareWidth subsquareWidth rounding
  congr 1
  push_cast
  ring

lemma extractCoordinates_valid (L : GoStr) (h : goValidLocator L = true) :
    ∃ n, normalizeGridSquare L = some n ∧ validateInput n = .ok () ∧
      extractCoordinates L = .ok (specLatitude n, specLongitude n) := by
  obtain ⟨n, hn, hv⟩ := goValidLocator_elim L h
  refine ⟨n, hn, hv, ?_⟩
  unfold extractCoordinates
  rw [LatitudeFromGridSquare_valid L n hn hv, LongitudeFromGridSquare_valid L n hn hv]

/- ## Claim C1 and C2 theorems -/

/-- Claim C1: for every valid six-character locator, `LatitudeFromGridSquare`
returns `field*10 + square*1 + sub*(2.5/60) + (2.5/60)/2 - 90` rounded to 5
decimal places, with field read from string-index 1 (A-R), square from
string-index 3 (digit) and sub from string-index 5 (a-x after
normalization), and `LongitudeFromGridSquare` returns the symmetric formula
over string-indices 0, 2, 4 with widths 20, 2 and 5/60 and origin -180. -/
theorem latitudeOf_longitudeOf_formula (L : GoStr) (h : goValidLocator L = true) :
    ∃ n, normalizeGridSquare L = some n ∧
      LatitudeFromGridSquare L = .ok (specLatitude n) ∧
      LongitudeFromGridSquare L = .ok (specLongitude n) := by
  obtain ⟨n, hn, hv⟩ := goValidLocator_elim L h
  exact ⟨n, hn, LatitudeFromGridSquare_valid L n hn hv,
    LongitudeFromGridSquare_valid L n hn hv⟩

/-- Witness for C1 at the locator JN58td. -/
theorem latitudeOf_longitudeOf_formula_witness :
    goValidLocator [74, 78, 53, 56, 116, 100] = true ∧
    ∃ n, normalizeGridSquare [74, 78, 53, 56, 116, 100] = some n ∧
      LatitudeFromGridSquare [74, 78, 53, 56, 116, 100] = .ok (specLatitude n) ∧
      LongitudeFromGridSquare [74, 78, 53, 56, 116, 100] = .ok (specLongitude n) :=
  ⟨by decide, latitudeOf_longitudeOf_formula [74, 78, 53, 56, 116, 100] (by decide)⟩

/-- Claim C2: `validateInput` checks its seven rules in strict left-to-right
order (length 6; positions 0-1 uppercase A-R; positions 2-3 digits;
positions 4-5 lowercase a-x); on any invalid input it fails with a message
containing the exact phrase of the first violated rule together with the
offending input, and on any input satisfying all rules it succeeds. -/
theorem validateInput_first_violation (s : GoStr) :
    match specPhrase s with
    | none => validateInput s = .ok ()
    | some p => ∃ m, validateInput s = .error m ∧ bytesContain p m ∧ bytesContain s m := by
  cases hp : specPhrase s with
  | none => rw [validateInput_spec s, hp]
  | some p =>
    rw [validateInput_spec s, hp]
    refine ⟨fmtErr s p, rfl, ?_, ?_⟩
    · refine ⟨strBytes (r"invalid gridsquare format: ") ++ s ++ strBytes (r" ("),
        strBytes (r")"), ?_⟩
      simp [fmtErr, List.append_assoc]
    · refine ⟨strBytes (r"invalid gridsquare format: "),
        strBytes (r" (") ++ p ++ strBytes (r")"), ?_⟩
      simp [fmtErr, List.append_assoc]

/- ## Lemmas about case folding and normalization -/

lemma goToUpper_ascii_of {r : Nat} (h : goToUpper r < 128) : r < 128 := by
  unfold goToUpper at h
  split_ifs at h <;> omega

lemma goToLower_ascii_of {r : Nat} (h : goToLower r < 128) : r < 128 := by
  unfold goToLower at h
  split_ifs at h <;> omega

lemma goToUpper_eq_asciiUpper {r : Nat} (h : r < 128) : goToUpper r = asciiUpper r := by
  unfold goToUpper asciiUpper
  split_ifs <;> omega

lemma goToLower_eq_asciiLower {r : Nat} (h : r < 128) : goToLower r = asciiLower r := by
  unfold goToLower asciiLower
  split_ifs <;> omega

lemma asciiLower_lt_128 {x y : Nat} (h : asciiLower x = asciiLower y) (hx : x < 128) :
    y < 128 := by
  unfold asciiLower at h
  split_ifs at h <;> omega

lemma goToUpper_congr_of_asciiLower {x y : Nat} (h : asciiLower x = asciiLower y)
    (hx : x < 128) (hy : y < 128) : goToUpper x = goToUpper y := by
  unfold asciiLower at h
  unfold goToUpper
  split_ifs at h ⊢ <;> omega

lemma goToLower_congr_of_asciiLower {x y : Nat} (h : asciiLower x = asciiLower y)
    (hx : x < 128) (hy : y < 128) : goToLower x = goToLower y := by
  unfold asciiLower at h
  unfold goToLower
  split_ifs at h ⊢ <;> omega

lemma asciiLower_digit_eq {x y : Nat} (h : asciiLower x = asciiLower y)
    (hx : 48 ≤ x ∧ x ≤ 57) : y = x := by
  unfold asciiLower at h
  split_ifs at h <;> omega

/-- Decoding never yields more runes than input bytes. -/
lemma utf8Decode_length_le (s : List Nat) : (utf8Decode s).length ≤ s.length := by
  induction s using utf8Decode.induct
  all_goals
    first
      | rfl
      | (rw [utf8Decode_one]; split_ifs <;> simp)
      | (rw [utf8Decode_two]; split_ifs <;> simp_all)
      | (rw [utf8Decode_three]; split_ifs <;> simp_all <;> omega)
      | (rw [utf8Decode_four]; split_ifs <;> simp_all <;> omega)

/-- `normalizeGridSquare` on a 6-byte input whose rune decomposition is
known: case-fold runes 0, 1, 4, 5 and re-encode. -/
lemma normalizeGridSquare_of_decode (s : GoStr) (r0 r1 r2 r3 r4 r5 : Nat)
    (h6 : s.length = 6) (hd : utf8Decode s = [r0, r1, r2, r3, r4, r5]) :
    normalizeGridSquare s =
      some (utf8EncodeRunes
        [goToUpper r0, goToUpper r1, r2, r3, goToLower r4, goToLower r5]) := by
  unfold normalizeGridSquare
  rw [if_neg (by omega)]
  simp only [hd]
  rw [if_neg (by simp)]
  rfl

/-- Structure of an accepted locator: six ASCII bytes whose normalization
case-folds positions 0, 1, 4, 5 at the byte level. -/
lemma goValidLocator_ascii (L : GoStr) (h : goValidLocator L = true) :
    ∃ b0 b1 b2 b3 b4 b5, L = [b0, b1, b2, b3, b4, b5] ∧
      (b0 < 128 ∧ b1 < 128 ∧ b2 < 128 ∧ b3 < 128 ∧ b4 < 128 ∧ b5 < 128) ∧
      normalizeGridSquare L =
        some [goToUpper b0, goToUpper b1, b2, b3, goToLower b4, goToLower b5] ∧
      validateInput [goToUpper b0, goToUpper b1, b2, b3, goToLower b4, goToLower b5] =
        .ok () := by
  obtain ⟨n, hn, hv⟩ := goValidLocator_elim L h
  obtain ⟨n0, n1, n2, n3, n4, n5, hnshape, hr0, hr1, hr2, hr3, hr4, hr5⟩ :=
    validateInput_ok_shape n hv
  by_cases h6 : L.length = 6
  case neg =>
    exfalso
    unfold normalizeGridSquare at hn
    rw [if_pos h6] at hn
    have hLn : L = n := by injection hn
    rw [hLn, hnshape] at h6
    simp at h6
  have hge : ¬(utf8Decode L).length < 6 := by
    intro hg
    unfold normalizeGridSquare at hn
    rw [if_neg (by omega)] at hn
    simp only at hn
    rw [if_pos hg] at hn
    simp at hn
  have hlen6 : (utf8Decode L).length = 6 := by
    have := utf8Decode_length_le L
    omega
  obtain ⟨r0, r1, r2, r3, r4, r5, hdecL⟩ := exists_six (utf8Decode L) hlen6
  have hns := normalizeGridSquare_of_decode L r0 r1 r2 r3 r4 r5 h6 hdecL
  have hEn : utf8EncodeRunes
      [goToUpper r0, goToUpper r1, r2, r3, goToLower r4, goToLower r5] = n := by
    have := hns.symm.trans hn
    injection this
  have hascii : ∀ r ∈ [goToUpper r0, goToUpper r1, r2, r3, goToLower r4, goToLower r5],
      r < 128 := by
    apply utf8EncodeRunes_length_eq_ascii
    rw [hEn, hnshape]
    rfl
  have ha0 : goToUpper r0 < 128 := hascii _ (by simp)
  have ha1 : goToUpper r1 < 128 := hascii _ (by simp)
  have ha2 : r2 < 128 := hascii _ (by simp)
  have ha3 : r3 < 128 := hascii _ (by simp)
  have ha4 : goToLower r4 < 128 := hascii _ (by simp)
  have ha5 : goToLower r5 < 128 := hascii _ (by simp)
  have k0 := goToUpper_ascii_of ha0
  have k1 := goToUpper_ascii_of ha1
  have k4 := goToLower_ascii_of ha4
  have k5 := goToLower_ascii_of ha5
  have hrunes : ∀ r ∈ utf8Decode L, r < 128 := by
    rw [hdecL]
    intro r hr
    simp only [List.mem_cons, List.not_mem_nil, or_false] at hr
    rcases hr with rfl | rfl | rfl | rfl | rfl | rfl <;> omega
  obtain ⟨hid, hLascii⟩ := utf8Decode_runes_ascii L hrunes
  have hLshape : L = [r0, r1, r2, r3, r4, r5] := by rw [← hid, hdecL]
  have hfoldid : utf8EncodeRunes
      [goToUpper r0, goToUpper r1, r2, r3, goToLower r4, goToLower r5] =
      [goToUpper r0, goToUpper r1, r2, r3, goToLower r4, goToLower r5] :=
    utf8EncodeRunes_ascii _ hascii
  refine ⟨r0, r1, r2, r3, r4, r5, hLshape, ⟨k0, k1, ha2, ha3, k4, k5⟩, ?_, ?_⟩
  · rw [hns, hfoldid]
  · rw [← hfoldid, hEn]
    exact hv

lemma LatitudeFromGridSquare_congr (x y : GoStr)
    (h : normalizeGridSquare x = normalizeGridSquare y) :
    LatitudeFromGridSquare x = LatitudeFromGridSquare y := by
  unfold LatitudeFromGridSquare
  rw [h]

lemma LongitudeFromGridSquare_congr (x y : GoStr)
    (h : normalizeGridSquare x = normalizeGridSquare y) :
    LongitudeFromGridSquare x = LongitudeFromGridSquare y := by
  unfold LongitudeFromGridSquare
  rw [h]

lemma asciiUpper_lt_128 {b : Nat} (h : b < 128) : asciiUpper b < 128 := by
  unfold asciiUpper
  split_ifs <;> omega

lemma asciiLower_lt_128_self {b : Nat} (h : b < 128) : asciiLower b < 128 := by
  unfold asciiLower
  split_ifs <;> omega

/-- Claim C7: for every valid locator and every byte string differing from
it only in ASCII letter case, `LatitudeFromGridSquare` and
`LongitudeFromGridSquare` return identical results. -/
theorem coordinates_case_insensitive (L L2 : GoStr) (hL : goValidLocator L = true)
    (hc : caseVariant L L2) :
    LatitudeFromGridSquare L = LatitudeFromGridSquare L2 ∧
    LongitudeFromGridSquare L = LongitudeFromGridSquare L2 := by
  obtain ⟨b0, b1, b2, b3, b4, b5, hLs, ⟨hb0, hb1, hb2, hb3, hb4, hb5⟩, hnorm, hval⟩ :=
    goValidLocator_ascii L hL
  subst hLs
  obtain ⟨hlen, hcv⟩ := hc
  obtain ⟨a0, a1, a2, a3, a4, a5, hL2s⟩ := exists_six L2 (by simpa using hlen.symm)
  subst hL2s
  have e0 : asciiLower b0 = asciiLower a0 := by
    have := hcv 0 (by norm_num); simpa using this
  have e1 : asciiLower b1 = asciiLower a1 := by
    have := hcv 1 (by norm_num); simpa using this
  have e2 : asciiLower b2 = asciiLower a2 := by
    have := hcv 2 (by norm_num); simpa using this
  have e3 : asciiLower b3 = asciiLower a3 := by
    have := hcv 3 (by norm_num); simpa using this
  have e4 : asciiLower b4 = asciiLower a4 := by
    have := hcv 4 (by norm_num); simpa using this
  have e5 : asciiLower b5 = asciiLower a5 := by
    have := hcv 5 (by norm_num); simpa using this
  have ka0 : a0 < 128 := asciiLower_lt_128 e0 hb0
  have ka1 : a1 < 128 := asciiLower_lt_128 e1 hb1
  have ka2 : a2 < 128 := asciiLower_lt_128 e2 hb2
  have ka3 : a3 < 128 := asciiLower_lt_128 e3 hb3
  have ka4 : a4 < 128 := asciiLower_lt_128 e4 hb4
  have ka5 : a5 < 128 := asciiLower_lt_128 e5 hb5
  obtain ⟨m0, m1, m2, m3, m4, m5, hmshape, hm0, hm1, hm2, hm3, hm4, hm5⟩ :=
    validateInput_ok_shape _ hval
  simp only [List.cons.injEq, and_true] at hmshape
  obtain ⟨hq0, hq1, hq2, hq3, hq4, hq5⟩ := hmshape
  have ha2eq : a2 = b2 := asciiLower_digit_eq e2 (by omega)
  have ha3eq : a3 = b3 := asciiLower_digit_eq e3 (by omega)
  have hdec2 : utf8Decode [a0, a1, a2, a3, a4, a5] = [a0, a1, a2, a3, a4, a5] :=
    utf8Decode_ascii _ (by intro x hx; simp at hx; rcases hx with rfl|rfl|rfl|rfl|rfl|rfl <;> omega)
  have hns2 := normalizeGridSquare_of_decode [a0, a1, a2, a3, a4, a5]
    a0 a1 a2 a3 a4 a5 (by simp) hdec2
  have u0 : goToUpper a0 = goToUpper b0 :=
    (goToUpper_congr_of_asciiLower e0 hb0 ka0).symm
  have u1 : goToUpper a1 = goToUpper b1 :=
    (goToUpper_congr_of_asciiLower e1 hb1 ka1).symm
  have l4 : goToLower a4 = goToLower b4 :=
    (goToLower_congr_of_asciiLower e4 hb4 ka4).symm
  have l5 : goToLower a5 = goToLower b5 :=
    (goToLower_congr_of_asciiLower e5 hb5 ka5).symm
  have hfa2 : ∀ r ∈ [goToUpper a0, goToUpper a1, a2, a3, goToLower a4, goToLower a5],
      r < 128 := by
    intro r hr
    simp only [List.mem_cons, List.not_mem_nil, or_false] at hr
    rcases hr with rfl | rfl | rfl | rfl | rfl | rfl <;>
      first
        | (rw [u0]; omega)
        | (rw [u1]; omega)
        | (rw [l4]; omega)
        | (rw [l5]; omega)
        | omega
  have hnorm2 : normalizeGridSquare [a0, a1, a2, a3, a4, a5] =
      some [goToUpper b0, goToUpper b1, b2, b3, goToLower b4, goToLower b5] := by
    rw [hns2, utf8EncodeRunes_ascii _ hfa2, u0, u1, ha2eq, ha3eq, l4, l5]
  have heq : normalizeGridSquare [b0, b1, b2, b3, b4, b5] =
      normalizeGridSquare [a0, a1, a2, a3, a4, a5] := by
    rw [hnorm, hnorm2]
  exact ⟨LatitudeFromGridSquare_congr _ _ heq, LongitudeFromGridSquare_congr _ _ heq⟩

/-- Witness for C7: JN58TD and jn58td give identical coordinates. -/
theorem coordinates_case_insensitive_witness :
    LatitudeFromGridSquare [74, 78, 53, 56, 84, 68] =
      LatitudeFromGridSquare [106, 110, 53, 56, 116, 100] ∧
    LongitudeFromGridSquare [74, 78, 53, 56, 84, 68] =
      LongitudeFromGridSquare [106, 110, 53, 56, 116, 100] :=
  coordinates_case_insensitive [74, 78, 53, 56, 84, 68] [106, 110, 53, 56, 116, 100]
    (by decide) (by decide)

/-- Counterexample to C8 as stated for every input: the 6-byte input
0xC3 0xA0 "58td" (the string "à58td") contains a 2-byte UTF-8 sequence, so
it decodes to only 5 runes and `normalizeGridSquare` panics (models as
`none`) instead of returning the case-folded 6-byte string that the claim
prescribes (here the input itself, as its letters are already lowercase). -/
theorem normalizeGridSquare_panic_cx :
    normalizeGridSquare [195, 160, 53, 56, 116, 100] = none ∧
    specNormalize [195, 160, 53, 56, 116, 100] = [195, 160, 53, 56, 116, 100] := by
  constructor
  · rfl
  · rfl

/-- Claim C8 (amended to ASCII inputs): for every all-ASCII byte string,
`normalizeGridSquare` returns the input unchanged unless it is exactly 6
bytes long; when it is, it returns the same string with positions 0-1
uppercased and positions 4-5 lowercased, positions 2-3 untouched, with no
validation. -/
theorem normalizeGridSquare_ascii_spec (s : GoStr) (hA : ∀ b ∈ s, b < 128) :
    normalizeGridSquare s = some (specNormalize s) := by
  by_cases h6 : s.length = 6
  · obtain ⟨b0, b1, b2, b3, b4, b5, rfl⟩ := exists_six s h6
    have hb0 : b0 < 128 := hA _ (by simp)
    have hb1 : b1 < 128 := hA _ (by simp)
    have hb2 : b2 < 128 := hA _ (by simp)
    have hb3 : b3 < 128 := hA _ (by simp)
    have hb4 : b4 < 128 := hA _ (by simp)
    have hb5 : b5 < 128 := hA _ (by simp)
    have hdec : utf8Decode [b0, b1, b2, b3, b4, b5] = [b0, b1, b2, b3, b4, b5] :=
      utf8Decode_ascii _ hA
    have hns := normalizeGridSquare_of_decode _ b0 b1 b2 b3 b4 b5 h6 hdec
    have hfa : ∀ r ∈ [goToUpper b0, goToUpper b1, b2, b3, goToLower b4, goToLower b5],
        r < 128 := by
      intro r hr
      simp only [List.mem_cons, List.not_mem_nil, or_false] at hr
      rcases hr with rfl | rfl | rfl | rfl | rfl | rfl <;>
        first
          | (rw [goToUpper_eq_asciiUpper (by omega)]; exact asciiUpper_lt_128 (by omega))
          | (rw [goToLower_eq_asciiLower (by omega)]; exact asciiLower_lt_128_self (by omega))
          | omega
    rw [hns, utf8EncodeRunes_ascii _ hfa]
    unfold specNormalize
    rw [if_neg (by simp)]
    simp only [List.getD_cons_zero, List.getD_cons_succ]
    rw [goToUpper_eq_asciiUpper hb0, goToUpper_eq_asciiUpper hb1,
      goToLower_eq_asciiLower hb4, goToLower_eq_asciiLower hb5]
  · unfold normalizeGridSquare specNormalize
    rw [if_pos h6, if_pos h6]

/-- Witness for the amended C8 at the mixed-case input jN58Td. -/
theorem normalizeGridSquare_ascii_spec_witness :
    normalizeGridSquare [106, 78, 53, 56, 84, 100] =
      some (specNormalize [106, 78, 53, 56, 84, 100]) :=
  normalizeGridSquare_ascii_spec [106, 78, 53, 56, 84, 100] (by decide)

/- ## Lemmas about the bearing engine -/

lemma arctan_nonpos_aux {t : ℝ} (h : t ≤ 0) : Real.arctan t ≤ 0 := by
  have h2 := Real.arctan_strictMono.monotone h
  simpa [Real.arctan_zero] using h2

lemma arctan_pos_aux {t : ℝ} (h : 0 < t) : 0 < Real.arctan t := by
  have h2 := Real.arctan_strictMono h
  simpa [Real.arctan_zero] using h2

lemma arctan_lt_self_aux {t : ℝ} (h0 : 0 < t) (h2 : t < Real.pi / 2) :
    Real.arctan t < t := by
  have h1 := Real.lt_tan h0 h2
  have h3 : Real.arctan t < Real.arctan (Real.tan t) := Real.arctan_strictMono h1
  rwa [Real.arctan_tan (by linarith [Real.pi_pos]) h2] at h3

/-- `math.Atan2` always lies in (-pi, pi]. -/
lemma goAtan2_bounds (y x : ℝ) :
    -Real.pi < goAtan2 y x ∧ goAtan2 y x ≤ Real.pi := by
  have hpi := Real.pi_pos
  unfold goAtan2
  split_ifs with hx hx2 hy hy2 hy3
  · have h1 := Real.arctan_lt_pi_div_two (y / x)
    have h2 := Real.neg_pi_div_two_lt_arctan (y / x)
    constructor <;> linarith
  · have h1 : y / x ≤ 0 := div_nonpos_iff.mpr (Or.inl ⟨hy, hx2.le⟩)
    have h2 := arctan_nonpos_aux h1
    have h3 := Real.neg_pi_div_two_lt_arctan (y / x)
    constructor <;> linarith
  · have h1 : 0 < y / x := div_pos_iff.mpr (Or.inr ⟨not_le.mp hy, hx2⟩)
    have h2 := arctan_pos_aux h1
    have h3 := Real.arctan_lt_pi_div_two (y / x)
    constructor <;> linarith
  · constructor <;> linarith
  · constructor <;> linarith
  · constructor <;> linarith

lemma goMathRound_nonneg_eq (x : ℝ) (h : 0 ≤ x) :
    goMathRound x = ((⌊x + 1 / 2⌋ : ℤ) : ℝ) := by
  unfold goMathRound
  rw [if_pos h]

/-- The value computed by `CalculateBearing` is a multiple of 0.1 in the
closed interval [0, 360]. -/
lemma calculateBearing_bounds (lat1 lon1 lat2 lon2 : ℝ) :
    0 ≤ CalculateBearing lat1 lon1 lat2 lon2 ∧
    CalculateBearing lat1 lon1 lat2 lon2 ≤ 360 ∧
    ∃ k : ℤ, CalculateBearing lat1 lon1 lat2 lon2 = (k : ℝ) / 10 := by
  have hpi := Real.pi_pos
  simp only [CalculateBearing]
  set A := goAtan2
    (Real.sin (toRadians lon2 - toRadians lon1) * Real.cos (toRadians lat2))
    (Real.cos (toRadians lat1) * Real.sin (toRadians lat2) -
      Real.sin (toRadians lat1) * Real.cos (toRadians lat2) *
        Real.cos (toRadians lon2 - toRadians lon1)) with hA
  obtain ⟨hA1, hA2⟩ := goAtan2_bounds _ _
  rw [← hA] at hA1 hA2
  have hd1 : toDegrees A ≤ 180 := by
    unfold toDegrees
    rw [div_le_iff hpi]
    nlinarith
  have hd2 : -180 < toDegrees A := by
    unfold toDegrees
    rw [lt_div_iff hpi]
    nlinarith
  set d := toDegrees A with hdd
  set b := if d < 0 then d + 360 else d with hb
  have hb1 : 0 ≤ b := by
    rw [hb]
    split_ifs <;> linarith
  have hb2 : b < 360 := by
    rw [hb]
    split_ifs <;> linarith
  rw [goMathRound_nonneg_eq _ (by linarith)]
  have hf1 : (0 : ℤ) ≤ ⌊b * 10 + 1 / 2⌋ := by
    apply Int.floor_nonneg.mpr
    linarith
  have hf2 : ⌊b * 10 + 1 / 2⌋ ≤ 3600 := by
    have h3 : (⌊b * 10 + 1 / 2⌋ : ℝ) ≤ b * 10 + 1 / 2 := Int.floor_le _
    have h4 : (⌊b * 10 + 1 / 2⌋ : ℝ) < 3601 := by linarith
    have h5 : ⌊b * 10 + 1 / 2⌋ < 3601 := by exact_mod_cast h4
    omega
  refine ⟨?_, ?_, ⟨⌊b * 10 + 1 / 2⌋, rfl⟩⟩
  · positivity
  · have : ((⌊b * 10 + 1 / 2⌋ : ℤ) : ℝ) ≤ 3600 := by exact_mod_cast hf2
    linarith

/-- Two coinciding points give bearing 0. -/
lemma calculateBearing_self (lat lon : ℝ) : CalculateBearing lat lon lat lon = 0 := by
  have hx0 : Real.cos (toRadians lat) * Real.sin (toRadians lat) -
      Real.sin (toRadians lat) * Real.cos (toRadians lat) = 0 := by ring
  have hfl : (⌊(0 : ℝ) + 1 / 2⌋ : ℤ) = 0 := by
    rw [Int.floor_eq_iff]
    norm_num
  simp only [CalculateBearing, sub_self, Real.sin_zero, Real.cos_zero, zero_mul, mul_one,
    hx0]
  norm_num [goAtan2, toDegrees, goMathRound, hfl]

/-- Claim C3 (amended): `CalculateBearing` is total, always returns a
multiple of 0.1 in the closed interval [0, 360] (the value 360 itself is
attainable, see the counterexample to the original claim), and returns 0
when the two points coincide. -/
theorem calculateBearing_total_range (lat1 lon1 lat2 lon2 : ℝ) :
    (0 ≤ CalculateBearing lat1 lon1 lat2 lon2 ∧
     CalculateBearing lat1 lon1 lat2 lon2 ≤ 360 ∧
     ∃ k : ℤ, CalculateBearing lat1 lon1 lat2 lon2 = (k : ℝ) / 10) ∧
    CalculateBearing lat1 lon1 lat1 lon1 = 0 :=
  ⟨calculateBearing_bounds lat1 lon1 lat2 lon2, calculateBearing_self lat1 lon1⟩

/-- Counterexample to C3 as stated: from (0, 0) to (45, -0.01) the
unrounded bearing lies strictly between 359.99 and 360, so rounding to one
decimal place returns exactly 360, which is outside the claimed half-open
range [0, 360). -/
theorem calculateBearing_range_cx : CalculateBearing 0 0 45 (-(1 / 100)) = 360 := by
  have hpi := Real.pi_pos
  have hr0 : toRadians 0 = 0 := by unfold toRadians; ring
  have hr45 : toRadians 45 = Real.pi / 4 := by unfold toRadians; ring
  have hrm : toRadians (-(1 / 100)) = -(Real.pi / 18000) := by unfold toRadians; ring
  have hs2 : (0 : ℝ) < Real.sqrt 2 / 2 := by positivity
  have ht0 : (0 : ℝ) < Real.pi / 18000 := by positivity
  have ht1 : Real.pi / 18000 < Real.pi / 2 := by nlinarith
  have htpi : Real.pi / 18000 < Real.pi := by nlinarith
  have hsin_pos : 0 < Real.sin (Real.pi / 18000) :=
    Real.sin_pos_of_pos_of_lt_pi ht0 htpi
  have hsin_lt : Real.sin (Real.pi / 18000) < Real.pi / 18000 := Real.sin_lt ht0
  have hu1 : 0 < Real.arctan (Real.sin (Real.pi / 18000)) := arctan_pos_aux hsin_pos
  have hu2 : Real.arctan (Real.sin (Real.pi / 18000)) < Real.pi / 18000 :=
    lt_of_le_of_lt (Real.arctan_strictMono.monotone hsin_lt.le)
      (arctan_lt_self_aux ht0 ht1)
  have hat : goAtan2 ((-Real.sin (Real.pi / 18000)) * (Real.sqrt 2 / 2))
      (Real.sqrt 2 / 2) = -Real.arctan (Real.sin (Real.pi / 18000)) := by
    unfold goAtan2
    rw [if_pos hs2]
    rw [show ((-Real.sin (Real.pi / 18000)) * (Real.sqrt 2 / 2)) / (Real.sqrt 2 / 2) =
      -Real.sin (Real.pi / 18000) from by field_simp; ring]
    exact Real.arctan_neg _
  have hdeg : toDegrees (-Real.arctan (Real.sin (Real.pi / 18000))) =
      -(Real.arctan (Real.sin (Real.pi / 18000)) * 180 / Real.pi) := by
    unfold toDegrees
    ring
  set u := Real.arctan (Real.sin (Real.pi / 18000)) with hu
  have hD1 : -(1 / 100) < -(u * 180 / Real.pi) := by
    have h1 : u * 180 / Real.pi < 1 / 100 := by
      rw [div_lt_iff hpi]
      nlinarith
    linarith
  have hD2 : -(u * 180 / Real.pi) < 0 := by
    have h2 : 0 < u * 180 / Real.pi := by positivity
    linarith
  simp only [CalculateBearing, hr0, hr45, hrm, sub_zero, Real.cos_zero, Real.sin_zero,
    one_mul, zero_mul, Real.sin_neg, Real.sin_pi_div_four, Real.cos_pi_div_four, hat, hdeg]
  rw [if_pos (by exact hD2)]
  rw [goMathRound_nonneg_eq _ (by linarith)]
  have hfl : ⌊(-(u * 180 / Real.pi) + 360) * 10 + 1 / 2⌋ = (3600 : ℤ) := by
    rw [Int.floor_eq_iff]
    constructor
    · push_cast
      nlinarith
    · push_cast
      nlinarith
  rw [hfl]
  norm_num

/- ## Long-path bearing (claim C4) -/

lemma GetShortPathBearing_valid (l r : GoStr)
    (hl : goValidLocator l = true) (hr : goValidLocator r = true) :
    ∃ sp, GetShortPathBearing l r = .ok sp ∧ 0 ≤ sp ∧ sp ≤ 360 := by
  obtain ⟨n1, _, _, he1⟩ := extractCoordinates_valid l hl
  obtain ⟨n2, _, _, he2⟩ := extractCoordinates_valid r hr
  refine ⟨CalculateBearing ((specLatitude n1 : ℚ) : ℝ) ((specLongitude n1 : ℚ) : ℝ)
    ((specLatitude n2 : ℚ) : ℝ) ((specLongitude n2 : ℚ) : ℝ), ?_, ?_, ?_⟩
  · simp only [GetShortPathBearing, he1, he2]
  · exact (calculateBearing_bounds _ _ _ _).1
  · exact (calculateBearing_bounds _ _ _ _).2.1

lemma goMod_nonneg_eq (x : ℝ) (h : 0 ≤ x) : goMod x 360 = mod360 x := by
  unfold goMod goTrunc mod360
  rw [if_pos (by positivity)]
  ring

lemma mod360_bounds (x : ℝ) : 0 ≤ mod360 x ∧ mod360 x < 360 := by
  unfold mod360
  have h1 := Int.floor_le (x / 360)
  have h2 := Int.lt_floor_add_one (x / 360)
  constructor <;> nlinarith

lemma goMathRound10_close (v : ℝ) (h : 0 ≤ v) :
    |goMathRound (v * 10) / 10 - v| ≤ 1 / 20 := by
  rw [goMathRound_nonneg_eq _ (by linarith)]
  have h1 := Int.floor_le (v * 10 + 1 / 2)
  have h2 := Int.lt_floor_add_one (v * 10 + 1 / 2)
  rw [abs_le]
  constructor <;> linarith

/-- Claim C4: for every pair of valid locators, the long-path bearing
equals the short-path bearing plus 180 degrees, reduced modulo 360 into
[0, 360), within 0.1 degree. -/
theorem longPathBearing_eq_shortPath_plus_180 (l r : GoStr)
    (hl : goValidLocator l = true) (hr : goValidLocator r = true) :
    ∃ sp lp, GetShortPathBearing l r = .ok sp ∧ GetLongPathBearing l r = .ok lp ∧
      |lp - mod360 (sp + 180)| ≤ 1 / 10 := by
  obtain ⟨sp, hsp, hsp0, hsp360⟩ := GetShortPathBearing_valid l r hl hr
  obtain ⟨hm0, hm360⟩ := mod360_bounds (sp + 180)
  refine ⟨sp, goMathRound (mod360 (sp + 180) * 10) / 10, hsp, ?_, ?_⟩
  · simp only [GetLongPathBearing, hsp]
    rw [goMod_nonneg_eq _ (by linarith), if_neg (not_lt.mpr hm0)]
  · exact le_trans (goMathRound10_close (mod360 (sp + 180)) hm0) (by norm_num)

/-- Witness for C4 at the locators JN58td and FN31pr. -/
theorem longPathBearing_eq_shortPath_plus_180_witness :
    ∃ sp lp, GetShortPathBearing [74, 78, 53, 56, 116, 100] [70, 78, 51, 49, 112, 114] =
        .ok sp ∧
      GetLongPathBearing [74, 78, 53, 56, 116, 100] [70, 78, 51, 49, 112, 114] = .ok lp ∧
      |lp - mod360 (sp + 180)| ≤ 1 / 10 :=
  longPathBearing_eq_shortPath_plus_180 [74, 78, 53, 56, 116, 100]
    [70, 78, 51, 49, 112, 114] (by decide) (by decide)

/- ## Distances (claims C5, C6, C10) -/

lemma ceil_circumference : (⌈2 * Real.pi * earthRad⌉ : ℤ) = 40031 := by
  rw [Int.ceil_eq_iff]
  have h1 := Real.pi_gt_d6
  have h2 := Real.pi_lt_d6
  constructor
  · push_cast
    unfold earthRad
    nlinarith
  · push_cast
    unfold earthRad
    nlinarith

lemma GetShortPathDistance_valid (l r : GoStr)
    (hl : goValidLocator l = true) (hr : goValidLocator r = true) :
    ∃ n : ℤ, GetShortPathDistance l r =
      .ok (((n : ℤ) : ℝ), ((⌈((n : ℤ) : ℝ) * kmToMiles⌉ : ℤ) : ℝ)) := by
  obtain ⟨n1, _, _, he1⟩ := extractCoordinates_valid l hl
  obtain ⟨n2, _, _, he2⟩ := extractCoordinates_valid r hr
  exact ⟨_, by simp only [GetShortPathDistance, he1, he2]; rfl⟩

/-- Master lemma for the distance claims: on valid locators both distance
functions succeed, the two kilometer values are integers summing to exactly
`ceil(2 pi 6371) = 40031`, and each miles value is the ceiling of the
already-rounded kilometer value times 0.621371. -/
lemma distance_master (l r : GoStr)
    (hl : goValidLocator l = true) (hr : goValidLocator r = true) :
    ∃ skm smi lkm lmi : ℝ,
      GetShortPathDistance l r = .ok (skm, smi) ∧
      GetLongPathDistance l r = .ok (lkm, lmi) ∧
      (∃ a : ℤ, skm = (a : ℝ)) ∧ (∃ b : ℤ, lkm = (b : ℝ)) ∧
      smi = ((⌈skm * kmToMiles⌉ : ℤ) : ℝ) ∧ lmi = ((⌈lkm * kmToMiles⌉ : ℤ) : ℝ) ∧
      skm + lkm = ((⌈2 * Real.pi * earthRad⌉ : ℤ) : ℝ) ∧
      skm + lkm = (40031 : ℝ) := by
  obtain ⟨n, hs⟩ := GetShortPathDistance_valid l r hl hr
  have hlong : GetLongPathDistance l r =
      .ok (((⌈2 * Real.pi * earthRad - ((n : ℤ) : ℝ)⌉ : ℤ) : ℝ),
        ((⌈((⌈2 * Real.pi * earthRad - ((n : ℤ) : ℝ)⌉ : ℤ) : ℝ) * kmToMiles⌉ : ℤ) : ℝ)) := by
    simp only [GetLongPathDistance, hs]
  have hceil : (⌈2 * Real.pi * earthRad - ((n : ℤ) : ℝ)⌉ : ℤ) =
      (⌈2 * Real.pi * earthRad⌉ : ℤ) - n := Int.ceil_sub_int _ _
  refine ⟨_, _, _, _, hs, hlong, ⟨n, rfl⟩, ⟨_, rfl⟩, rfl, rfl, ?_, ?_⟩
  · rw [hceil]
    push_cast
    ring
  · rw [hceil, ceil_circumference]
    push_cast
    ring

/-- Claim C10: for every pair of valid locators the short-path and
long-path kilometer values sum to exactly `ceil(2 pi 6371) = 40031`: the
long-path kilometers are `ceil(2 pi 6371 - shortKm) = ceil(2 pi 6371) -
shortKm` because shortKm is integral, so the two ceilings accumulate no
error. -/
theorem distance_sum_exact_40031 (l r : GoStr)
    (hl : goValidLocator l = true) (hr : goValidLocator r = true) :
    ∃ skm smi lkm lmi : ℝ,
      GetShortPathDistance l r = .ok (skm, smi) ∧
      GetLongPathDistance l r = .ok (lkm, lmi) ∧
      skm + lkm = ((⌈2 * Real.pi * earthRad⌉ : ℤ) : ℝ) ∧
      skm + lkm = (40031 : ℝ) := by
  obtain ⟨skm, smi, lkm, lmi, hs, hl2, _, _, _, _, h1, h2⟩ := distance_master l r hl hr
  exact ⟨skm, smi, lkm, lmi, hs, hl2, h1, h2⟩

/-- Witness for C10 at the locators JN58td and FN31pr. -/
theorem distance_sum_exact_40031_witness :
    ∃ skm smi lkm lmi : ℝ,
      GetShortPathDistance [74, 78, 53, 56, 116, 100] [70, 78, 51, 49, 112, 114] =
        .ok (skm, smi) ∧
      GetLongPathDistance [74, 78, 53, 56, 116, 100] [70, 78, 51, 49, 112, 114] =
        .ok (lkm, lmi) ∧
      skm + lkm = ((⌈2 * Real.pi * earthRad⌉ : ℤ) : ℝ) ∧
      skm + lkm = (40031 : ℝ) :=
  distance_sum_exact_40031 [74, 78, 53, 56, 116, 100] [70, 78, 51, 49, 112, 114]
    (by decide) (by decide)

/-- Claim C5: for every pair of valid locators, short-path plus long-path
kilometers differ from `ceil(2 pi 6371) = 40031` by at most 2 km. -/
theorem distance_complementarity_within_2km (l r : GoStr)
    (hl : goValidLocator l = true) (hr : goValidLocator r = true) :
    ∃ skm smi lkm lmi : ℝ,
      GetShortPathDistance l r = .ok (skm, smi) ∧
      GetLongPathDistance l r = .ok (lkm, lmi) ∧
      |skm + lkm - ((⌈2 * Real.pi * earthRad⌉ : ℤ) : ℝ)| ≤ 2 := by
  obtain ⟨skm, smi, lkm, lmi, hs, hl2, _, _, _, _, h1, _⟩ := distance_master l r hl hr
  refine ⟨skm, smi, lkm, lmi, hs, hl2, ?_⟩
  rw [h1]
  simp

/-- Witness for C5 at the locators JN58td and FN31pr. -/
theorem distance_complementarity_within_2km_witness :
    ∃ skm smi lkm lmi : ℝ,
      GetShortPathDistance [74, 78, 53, 56, 116, 100] [70, 78, 51, 49, 112, 114] =
        .ok (skm, smi) ∧
      GetLongPathDistance [74, 78, 53, 56, 116, 100] [70, 78, 51, 49, 112, 114] =
        .ok (lkm, lmi) ∧
      |skm + lkm - ((⌈2 * Real.pi * earthRad⌉ : ℤ) : ℝ)| ≤ 2 :=
  distance_complementarity_within_2km [74, 78, 53, 56, 116, 100]
    [70, 78, 51, 49, 112, 114] (by decide) (by decide)

/-- Claim C6: for every pair of valid locators, the miles values of both
distance functions are obtained by a second independent ceiling applied to
the already-ceiled (integral) kilometer value times 0.621371, not to the
unrounded distance. -/
theorem miles_from_rounded_km (l r : GoStr)
    (hl : goValidLocator l = true) (hr : goValidLocator r = true) :
    ∃ skm smi lkm lmi : ℝ,
      GetShortPathDistance l r = .ok (skm, smi) ∧
      GetLongPathDistance l r = .ok (lkm, lmi) ∧
      (∃ a : ℤ, skm = (a : ℝ)) ∧ (∃ b : ℤ, lkm = (b : ℝ)) ∧
      smi = ((⌈skm * kmToMiles⌉ : ℤ) : ℝ) ∧ lmi = ((⌈lkm * kmToMiles⌉ : ℤ) : ℝ) := by
  obtain ⟨skm, smi, lkm, lmi, hs, hl2, ha, hb, h1, h2, _, _⟩ := distance_master l r hl hr
  exact ⟨skm, smi, lkm, lmi, hs, hl2, ha, hb, h1, h2⟩

/-- Witness for C6 at the locators JN58td and FN31pr. -/
theorem miles_from_rounded_km_witness :
    ∃ skm smi lkm lmi : ℝ,
      GetShortPathDistance [74, 78, 53, 56, 116, 100] [70, 78, 51, 49, 112, 114] =
        .ok (skm, smi) ∧
      GetLongPathDistance [74, 78, 53, 56, 116, 100] [70, 78, 51, 49, 112, 114] =
        .ok (lkm, lmi) ∧
      (∃ a : ℤ, skm = (a : ℝ)) ∧ (∃ b : ℤ, lkm = (b : ℝ)) ∧
      smi = ((⌈skm * kmToMiles⌉ : ℤ) : ℝ) ∧ lmi = ((⌈lkm * kmToMiles⌉ : ℤ) : ℝ) :=
  miles_from_rounded_km [74, 78, 53, 56, 116, 100] [70, 78, 51, 49, 112, 114]
    (by decide) (by decide)

/- ## Error side tagging (claim C9) -/

/-- Claim C9: in `GetShortPathBearing` and `GetShortPathDistance` the local
locator is checked first; a validation failure on the local side is wrapped
with "invalid local grid square", and a failure on the remote side (with a
valid local side) is wrapped with "invalid remote grid square". -/
theorem two_locator_error_side_tag (l r : GoStr) :
    (∀ e, extractCoordinates l = .err e →
      GetShortPathBearing l r = .err (strBytes (r"invalid local grid square: ") ++ e) ∧
      GetShortPathDistance l r = .err (strBytes (r"invalid local grid square: ") ++ e) ∧
      bytesContain (strBytes (r"invalid local grid square"))
        (strBytes (r"invalid local grid square: ") ++ e) ∧
      bytesContain e (strBytes (r"invalid local grid square: ") ++ e)) ∧
    (∀ c e, extractCoordinates l = .ok c → extractCoordinates r = .err e →
      GetShortPathBearing l r = .err (strBytes (r"invalid remote grid square: ") ++ e) ∧
      GetShortPathDistance l r = .err (strBytes (r"invalid remote grid square: ") ++ e) ∧
      bytesContain (strBytes (r"invalid remote grid square"))
        (strBytes (r"invalid remote grid square: ") ++ e) ∧
      bytesContain e (strBytes (r"invalid remote grid square: ") ++ e)) := by
  constructor
  · intro e he
    refine ⟨by simp only [GetShortPathBearing, he],
      by simp only [GetShortPathDistance, he], ⟨[], strBytes (r": ") ++ e, ?_⟩,
      ⟨strBytes (r"invalid local grid square: "), [], ?_⟩⟩
    · rw [show strBytes (r"invalid local grid square: ") =
        strBytes (r"invalid local grid square") ++ strBytes (r": ") from rfl]
      simp [List.append_assoc]
    · simp
  · intro c e hc he
    refine ⟨by simp only [GetShortPathBearing, hc, he],
      by simp only [GetShortPathDistance, hc, he], ⟨[], strBytes (r": ") ++ e, ?_⟩,
      ⟨strBytes (r"invalid remote grid square: "), [], ?_⟩⟩
    · rw [show strBytes (r"invalid remote grid square: ") =
        strBytes (r"invalid remote grid square") ++ strBytes (r": ") from rfl]
      simp [List.append_assoc]
    · simp

/-- Witness for C9: the empty string fails locally; with a valid local
locator JN58td, an empty remote string fails on the remote side. -/
theorem two_locator_error_side_tag_witness :
    (GetShortPathBearing [] [70, 78, 51, 49, 112, 114] =
      .err (strBytes (r"invalid local grid square: ") ++
        fmtErr [] (strBytes (r"must be 6 characters"))) ∧
     GetShortPathDistance [] [70, 78, 51, 49, 112, 114] =
      .err (strBytes (r"invalid local grid square: ") ++
        fmtErr [] (strBytes (r"must be 6 characters"))) ∧
     bytesContain (strBytes (r"invalid local grid square"))
       (strBytes (r"invalid local grid square: ") ++
         fmtErr [] (strBytes (r"must be 6 characters"))) ∧
     bytesContain (fmtErr [] (strBytes (r"must be 6 characters")))
       (strBytes (r"invalid local grid square: ") ++
         fmtErr [] (strBytes (r"must be 6 characters")))) ∧
    (GetShortPathBearing [74, 78, 53, 56, 116, 100] [] =
      .err (strBytes (r"invalid remote grid square: ") ++
        fmtErr [] (strBytes (r"must be 6 characters"))) ∧
     GetShortPathDistance [74, 78, 53, 56, 116, 100] [] =
      .err (strBytes (r"invalid remote grid square: ") ++
        fmtErr [] (strBytes (r"must be 6 characters"))) ∧
     bytesContain (strBytes (r"invalid remote grid square"))
       (strBytes (r"invalid remote grid square: ") ++
         fmtErr [] (strBytes (r"must be 6 characters"))) ∧
     bytesContain (fmtErr [] (strBytes (r"must be 6 characters")))
       (strBytes (r"invalid remote grid square: ") ++
         fmtErr [] (strBytes (r"must be 6 characters")))) :=
  by
  constructor
  · exact (two_locator_error_side_tag [] [70, 78, 51, 49, 112, 114]).1
      (fmtErr [] (strBytes (r"must be 6 characters"))) (by decide)
  · obtain ⟨n, hn, hv, he⟩ :=
      extractCoordinates_valid [74, 78, 53, 56, 116, 100] (by decide)
    exact (two_locator_error_side_tag [74, 78, 53, 56, 116, 100] []).2
      (specLatitude n, specLongitude n)
      (fmtErr [] (strBytes (r"must be 6 characters"))) he (by decide)
